import Mathlib

/-!
Verification development for the `imgmc` command-line image client
(`src/main.rs`, `src/spinner.rs`).

The request-dispatch and response-materialization pipeline of `main.rs` is
shallowly embedded below:

* the JSON bodies exchanged with the service are modelled by an inductive
  `Json` type; the serde-derived decoding of `GenerationResponse`
  (an object with a `data` array of objects holding a `b64_json` string)
  is `decodeGenerationResponse`;
* the generate/edit request construction of `main` (lines 130-180) is
  `buildRequest`;
* the `slug::slugify` dependency is embedded byte-for-byte from the crate's
  `_slugify` (its `deunicode_char` transliteration table is an opaque
  parameter `d : Char → Option String`);
* the per-image save loop of `main` (lines 185-211) is `saveImagesFrom`:
  base64 decoding is an opaque parameter `dec` (only its success or failure
  matters to the pipeline), the working directory is a map
  `FS = String → Option (List Nat)` from file names to file bytes, and the
  collision loop with its `checked_add` overflow guard is `findFilename`.
-/

/-- JSON values, used both for request bodies built by `main` and for the
response bodies decoded by serde. -/
inductive Json where
  | null : Json
  | jbool : Bool → Json
  | jnum : Int → Json
  | jstr : String → Json
  | jarr : List Json → Json
  | jobj : List (String × Json) → Json

/-- Mirror of `struct ImageData` (main.rs lines 18-22): one image payload,
its `b64_json` field. -/
structure ImageData where
  b64_json : String
deriving DecidableEq

/-- Mirror of `struct GenerationResponse` (main.rs lines 24-27). -/
structure GenerationResponse where
  data : List ImageData
deriving DecidableEq

/-- Structured decoding failure of a response body (`serde` error surfaced by
`read_json`). -/
inductive DecodeErr where
  | decodeError : DecodeErr
deriving DecidableEq

/-- Serde-derived deserialization of one `data` array element: an object with
a string field `b64_json`. -/
def decodeImageData : Json → Except DecodeErr ImageData
  | Json.jobj fields =>
    match List.lookup "b64_json" fields with
    | some (Json.jstr s) => Except.ok ⟨s⟩
    | _ => Except.error DecodeErr.decodeError
  | _ => Except.error DecodeErr.decodeError

/-- Deserialization of each element of the `data` array, in order. -/
def decodeImageList : List Json → Except DecodeErr (List ImageData)
  | [] => Except.ok []
  | j :: rest => do
    let x ← decodeImageData j
    let xs ← decodeImageList rest
    Except.ok (x :: xs)

/-- Serde-derived deserialization of `GenerationResponse`: an object with a
field `data` holding an array of `ImageData` objects. -/
def decodeGenerationResponse : Json → Except DecodeErr GenerationResponse
  | Json.jobj fields =>
    match List.lookup "data" fields with
    | some (Json.jarr elems) =>
      match decodeImageList elems with
      | Except.ok xs => Except.ok ⟨xs⟩
      | Except.error e => Except.error e
    | _ => Except.error DecodeErr.decodeError
  | _ => Except.error DecodeErr.decodeError

/-- Outcome of reading a response body in `main`: a decoded response, a
structured error propagated with `?`, or a process abort via `unwrap`. -/
inductive HttpOutcome where
  | ok : GenerationResponse → HttpOutcome
  | err : DecodeErr → HttpOutcome
  | panicked : HttpOutcome
deriving DecidableEq

/-- Body handling on the generate path (main.rs lines 173-179):
`read_json::<GenerationResponse>().unwrap()` — a decode failure is an
`unwrap` on an `Err`, i.e. a panic, not a structured error. -/
def readGenerate (body : Json) : HttpOutcome :=
  match decodeGenerationResponse body with
  | Except.ok r => HttpOutcome.ok r
  | Except.error _ => HttpOutcome.panicked

/-- Body handling on the edit path (main.rs lines 158-162):
`read_json::<GenerationResponse>()?` — a decode failure is propagated as a
structured error. -/
def readEdit (body : Json) : HttpOutcome :=
  match decodeGenerationResponse body with
  | Except.ok r => HttpOutcome.ok r
  | Except.error e => HttpOutcome.err e

/-- Mirror of `enum ImageQuality` (main.rs lines 35-40). -/
inductive ImageQuality where
  | high : ImageQuality
  | medium : ImageQuality
  | low : ImageQuality
deriving DecidableEq

/-- Mirror of the `Display` impl for `ImageQuality` (main.rs lines 42-51). -/
def ImageQuality.toStr : ImageQuality → String
  | ImageQuality.high => "high"
  | ImageQuality.medium => "medium"
  | ImageQuality.low => "low"

/-- Mirror of `enum ImageResolution` (main.rs lines 53-61). -/
inductive ImageResolution where
  | r1024x1024 : ImageResolution
  | r1024x1536 : ImageResolution
  | r1536x1024 : ImageResolution
deriving DecidableEq

/-- Mirror of the `Display` impl for `ImageResolution` (main.rs lines 63-67),
which prints the clap value names. -/
def ImageResolution.toStr : ImageResolution → String
  | ImageResolution.r1024x1024 => "1024x1024"
  | ImageResolution.r1024x1536 => "1024x1536"
  | ImageResolution.r1536x1024 => "1536x1024"

/-- Mirror of the request-relevant fields of `struct Cli`
(main.rs lines 69-88). `count` is a `u8` in the source; the claims under
verification do not depend on its range, so it is carried as a `Nat`.
The reference image path is carried as its path string. -/
structure Cli where
  prompt : String
  quality : ImageQuality
  resolution : ImageResolution
  count : Nat
  reference : Option String

/-- Fixed API version string (main.rs line 127). -/
def apiVersion : String := "2025-04-01-preview"

/-- Mirror of `gen_url` (main.rs lines 130-133). -/
def genUrl (apiBase deployment : String) : String :=
  apiBase ++ "/openai/deployments/" ++ deployment ++
    "/images/generations?api-version=" ++ apiVersion

/-- Mirror of `edits_url` (main.rs lines 135-138). -/
def editsUrl (apiBase deployment : String) : String :=
  apiBase ++ "/openai/deployments/" ++ deployment ++
    "/images/edits?api-version=" ++ apiVersion

/-- One part of a multipart form: `Form::new().text(k, v)` or
`.file(k, path)`. Parts are kept in the order they are added. -/
inductive FormPart where
  | text : String → String → FormPart
  | file : String → String → FormPart
deriving DecidableEq

/-- Body of an outgoing request: JSON (generate path) or multipart form
(edit path). -/
inductive RequestBody where
  | jsonBody : Json → RequestBody
  | multipartForm : List FormPart → RequestBody

/-- An outgoing HTTP POST request: target URL and body. -/
structure Request where
  url : String
  body : RequestBody

/-- Request construction of `main` (main.rs lines 140-180): with a reference
image, a multipart form aimed at the edits URL (lines 146-162); without one,
a JSON body aimed at the generations URL (lines 163-180). -/
def buildRequest (apiBase deployment : String) (cli : Cli) : Request :=
  match cli.reference with
  | some refPath =>
    { url := editsUrl apiBase deployment
      body := RequestBody.multipartForm
        [ FormPart.text "prompt" cli.prompt
        , FormPart.text "n" (toString cli.count)
        , FormPart.text "size" cli.resolution.toStr
        , FormPart.text "quality" cli.quality.toStr
        , FormPart.text "output_format" "png"
        , FormPart.file "image" refPath ] }
  | none =>
    { url := genUrl apiBase deployment
      body := RequestBody.jsonBody (Json.jobj
        [ ("prompt", Json.jstr cli.prompt)
        , ("n", Json.jnum cli.count)
        , ("size", Json.jstr cli.resolution.toStr)
        , ("quality", Json.jstr cli.quality.toStr)
        , ("output_format", Json.jstr "png") ]) }

/-- UTF-8 bytes of one character, as naturals (Rust `str::as_bytes`,
restricted to a single `char`). -/
def charUtf8Bytes (c : Char) : List Nat :=
  (String.utf8EncodeChar c).map (fun b => b.toNat)

/-- UTF-8 byte length of a character list (Rust `str::len` on the string it
spells). -/
def utf8Length (s : List Char) : Nat :=
  (s.map Char.utf8Size).sum

/-- Mirror of the `push_char` closure of the `slug` crate's `_slugify`:
lowercase ASCII letters and digits are kept, uppercase ASCII letters are
lowercased, and any other byte becomes a separator `'-'` unless the previous
pushed byte already was one. The accumulator pairs the slug built so far with
the `prev_is_dash` flag. -/
def pushByte (acc : List Char × Bool) (x : Nat) : List Char × Bool :=
  if (97 ≤ x ∧ x ≤ 122) ∨ (48 ≤ x ∧ x ≤ 57) then
    (acc.1 ++ [Char.ofNat x], false)
  else if 65 ≤ x ∧ x ≤ 90 then
    (acc.1 ++ [Char.ofNat (x - 65 + 97)], false)
  else if acc.2 then acc
  else (acc.1 ++ ['-'], true)

/-- Main loop of `_slugify`: every ASCII input character is pushed as its
byte; a non-ASCII character is transliterated by `deunicode_char` — modelled
by the opaque table `d`, with `unwrap_or("-")` — and the bytes of the
resulting string are pushed one by one. `prev_is_dash` starts `true`. -/
def slugifyFold (d : Char → Option String) (cs : List Char) : List Char × Bool :=
  cs.foldl
    (fun acc c =>
      if c.toNat ≤ 0x7F then pushByte acc c.toNat
      else (((d c).getD "-").data.flatMap charUtf8Bytes).foldl pushByte acc)
    ([], true)

/-- Mirror of the `slug` crate's `_slugify` on character lists: run the fold,
then pop a trailing `'-'` if present. -/
def slugifyChars (d : Char → Option String) (cs : List Char) : List Char :=
  let slug := (slugifyFold d cs).1
  if slug.getLast? = some '-' then slug.dropLast else slug

/-- Mirror of `slug::slugify` (used at main.rs line 190), parameterized by the
transliteration table `d`. -/
def slugify (d : Char → Option String) (s : String) : String :=
  String.mk (slugifyChars d s.data)

/-- Model of the Rust byte-range slice `&s[..n]`: `some` of the sliced
characters when byte index `n` is in range and falls on a character boundary,
`none` (a panic in Rust) otherwise. -/
def byteSlice : List Char → Nat → Option (List Char)
  | _, 0 => some []
  | [], _ + 1 => none
  | c :: cs, n + 1 =>
    if c.utf8Size ≤ n + 1 then
      (byteSlice cs (n + 1 - c.utf8Size)).map (fun t => c :: t)
    else none

/-- Mirror of the slug truncation of `main` (main.rs lines 190-195): if the
slug's byte length exceeds 50, take the byte slice `[..50]`; `none` models the
panic of a slice that misses a character boundary. -/
def trimmedSlug (d : Char → Option String) (prompt : String) : Option (List Char) :=
  let slug := slugifyChars d prompt.data
  if 50 < utf8Length slug then byteSlice slug 50 else some slug

/-- String form of `trimmedSlug`. -/
def trimmedSlugStr (d : Char → Option String) (prompt : String) : Option String :=
  (trimmedSlug d prompt).map String.mk

/-- Characters the slugifier can emit: `'-'`, lowercase ASCII letters, ASCII
digits. -/
def isSlugChar (c : Char) : Prop :=
  c.toNat = 45 ∨ (97 ≤ c.toNat ∧ c.toNat ≤ 122) ∨ (48 ≤ c.toNat ∧ c.toNat ≤ 57)

/-- Model of the working directory: a map from file names to the bytes of the
file stored under that name (`none`: no such file). `Path::exists` is
`isSome`, `File::create` followed by `write_all` is a pointwise update. -/
abbrev FS : Type := String → Option (List Nat)

/-- Largest value of the 64-bit `usize` used for the collision counter. -/
def USIZE_MAX : Nat := 2 ^ 64 - 1

/-- Candidate output name formed at main.rs line 199. -/
def candidate (slug : String) (counter : Nat) : String :=
  slug ++ "_" ++ toString counter ++ ".png"

/-- Structured errors the save loop can abort with. `base64DecodeError` maps
the error string of main.rs line 188, `counterOverflowError` the one of line
205; `byteSliceOutOfBounds` models the panic a slice `&slug[..50]` off a
character boundary would raise at line 192 (proved unreachable below). -/
inductive MatErr where
  | base64DecodeError : MatErr
  | counterOverflowError : MatErr
  | byteSliceOutOfBounds : MatErr
deriving DecidableEq

/-- Collision-avoidance loop of main.rs lines 198-206, one step per candidate
counter. The source iterates a `usize` and fails on `checked_add` overflow,
i.e. after trying the counters up to and including `usize::MAX`; `fuel` counts
the counters still available, so the loop is entered with
`fuel = USIZE_MAX + 1 - counter`. -/
def findFrom (fs : FS) (slug : String) (counter : Nat) : Nat → Except MatErr (Nat × String)
  | 0 => Except.error MatErr.counterOverflowError
  | fuel + 1 =>
    if (fs (candidate slug counter)).isSome then findFrom fs slug (counter + 1) fuel
    else Except.ok (counter, candidate slug counter)

/-- The collision loop as entered by `main`: try counters `counter`,
`counter + 1`, ... and return the first candidate name not present in the
working directory, or the overflow error once the `usize` range is
exhausted. -/
def findFilename (fs : FS) (slug : String) (counter : Nat) : Except MatErr (Nat × String) :=
  findFrom fs slug counter (USIZE_MAX + 1 - counter)

/-- One output file produced by the save loop: its name, the collision
counter embedded in the name, the 1-based position `seqIdx = i + 1` of the
payload it came from, and the decoded bytes written to it. -/
structure GenFile where
  name : String
  counter : Nat
  seqIdx : Nat
  bytes : List Nat
deriving DecidableEq

/-- State after (a suffix of) the save loop: the resulting working directory,
the files created (in creation order), the stdout lines printed, and the
error that aborted the loop, if any. -/
structure MatState where
  fs : FS
  files : List GenFile
  lines : List String
  err : Option MatErr

/-- Save loop of main.rs lines 185-211, starting at 0-based payload index
`i`: decode the payload's base64 (`dec`, opaque: only success or failure is
observed), slugify and trim the prompt, search a free file name starting at
counter `i + 1`, write the decoded bytes there, print the confirmation line,
and continue; any failure aborts the remaining loop. -/
def saveImagesFrom (dec : String → Option (List Nat)) (d : Char → Option String)
    (prompt : String) (fs : FS) : List String → Nat → MatState
  | [], _ => ⟨fs, [], [], none⟩
  | p :: rest, i =>
    match dec p with
    | none => ⟨fs, [], [], some MatErr.base64DecodeError⟩
    | some bytes =>
      match trimmedSlugStr d prompt with
      | none => ⟨fs, [], [], some MatErr.byteSliceOutOfBounds⟩
      | some slug =>
        match findFilename fs slug (i + 1) with
        | Except.error e => ⟨fs, [], [], some e⟩
        | Except.ok (c, name) =>
          let fs' : FS := fun s => if s = name then some bytes else fs s
          let r := saveImagesFrom dec d prompt fs' rest (i + 1)
          ⟨r.fs, ⟨name, c, i + 1, bytes⟩ :: r.files,
            ("Image saved to: " ++ name) :: r.lines, r.err⟩

/-- The save loop as run by `main`: over all payloads of the response, from
index 0. -/
def saveImages (dec : String → Option (List Nat)) (d : Char → Option String)
    (prompt : String) (fs : FS) (payloads : List String) : MatState :=
  saveImagesFrom dec d prompt fs payloads 0

/-- Invariant tying a run of the save loop (started on directory `fs` at
0-based payload index `i`, with trimmed slug `slug`) to its result `R`:
pre-existing files keep their bytes, every created file has a fresh
slug-and-counter name holding its payload's bytes, sequence indices are
consecutive from `i + 1`, one confirmation line is printed per file, the
counters embedded in the names strictly increase, the first file's counter is
the least free one, and an error-free run creates one file per payload. -/
def SaveInv (slug : String) (fs : FS) (i : Nat) (payloads : List String)
    (R : MatState) : Prop :=
  (∀ s, (fs s).isSome = true → R.fs s = fs s) ∧
  (∀ f ∈ R.files, f.name = candidate slug f.counter ∧ fs f.name = none ∧
    f.seqIdx ≤ f.counter ∧ R.fs f.name = some f.bytes) ∧
  (∀ j f, R.files[j]? = some f → f.seqIdx = i + 1 + j) ∧
  R.lines = R.files.map (fun f => "Image saved to: " ++ f.name) ∧
  List.Chain' (fun a b => a.counter < b.counter) R.files ∧
  (∀ f, R.files.head? = some f →
    ∀ k, i + 1 ≤ k → k < f.counter → (fs (candidate slug k)).isSome = true) ∧
  (R.err = none → R.files.length = payloads.length)

theorem toNat_ofNat_valid (n : Nat) (h : n < 55296) : (Char.ofNat n).toNat = n := by
  have hv : n.isValidChar := Or.inl h
  rw [Char.ofNat, dif_pos hv]
  simp [Char.ofNatAux, Char.toNat, UInt32.toNat]

theorem isSlugChar_pushByte (acc : List Char × Bool) (x : Nat)
    (h : ∀ c ∈ acc.1, isSlugChar c) :
    ∀ c ∈ (pushByte acc x).1, isSlugChar c := by
  unfold pushByte
  split
  · rename_i hx
    intro c hc
    rcases List.mem_append.mp hc with hc | hc
    · exact h c hc
    · have hc' : c = Char.ofNat x := List.mem_singleton.mp hc
      subst hc'
      have hlt : x < 55296 := by omega
      unfold isSlugChar
      rw [toNat_ofNat_valid x hlt]
      omega
  · split
    · rename_i hx
      intro c hc
      rcases List.mem_append.mp hc with hc | hc
      · exact h c hc
      · have hc' : c = Char.ofNat (x - 65 + 97) := List.mem_singleton.mp hc
        subst hc'
        have hlt : x - 65 + 97 < 55296 := by omega
        unfold isSlugChar
        rw [toNat_ofNat_valid _ hlt]
        omega
    · split
      · exact h
      · intro c hc
        rcases List.mem_append.mp hc with hc | hc
        · exact h c hc
        · have hc' : c = '-' := List.mem_singleton.mp hc
          subst hc'
          exact Or.inl rfl

theorem isSlugChar_foldl_pushByte (bs : List Nat) (acc : List Char × Bool)
    (h : ∀ c ∈ acc.1, isSlugChar c) :
    ∀ c ∈ (bs.foldl pushByte acc).1, isSlugChar c := by
  induction bs generalizing acc with
  | nil => exact h
  | cons b bs ih =>
    exact ih (pushByte acc b) (isSlugChar_pushByte acc b h)

theorem isSlugChar_slugifyFold (d : Char → Option String) (cs : List Char) :
    ∀ c ∈ (slugifyFold d cs).1, isSlugChar c := by
  unfold slugifyFold
  generalize hacc : (([], true) : List Char × Bool) = acc
  have hinv : ∀ c ∈ acc.1, isSlugChar c := by
    subst hacc
    intro c hc
    simp at hc
  clear hacc
  induction cs generalizing acc with
  | nil => exact hinv
  | cons c cs ih =>
    simp only [List.foldl_cons]
    apply ih
    dsimp only
    split
    · exact isSlugChar_pushByte acc c.toNat hinv
    · exact isSlugChar_foldl_pushByte _ acc hinv

theorem isSlugChar_slugifyChars (d : Char → Option String) (cs : List Char) :
    ∀ c ∈ slugifyChars d cs, isSlugChar c := by
  unfold slugifyChars
  dsimp only
  split
  · intro c hc
    exact isSlugChar_slugifyFold d cs c (List.dropLast_subset _ hc)
  · exact isSlugChar_slugifyFold d cs

theorem isSlugChar_toNat_lt (c : Char) (h : isSlugChar c) : c.toNat < 128 := by
  rcases h with h | h | h <;> omega

theorem utf8Size_of_ascii (c : Char) (h : c.toNat < 128) : c.utf8Size = 1 := by
  have hv : c.val ≤ UInt32.ofNatCore 0x7F (by decide) := by
    change c.val.toBitVec ≤ _
    rw [BitVec.le_def]
    exact Nat.lt_succ_iff.mp h
  rw [Char.utf8Size, if_pos hv]

theorem utf8Length_eq_length (s : List Char) (h : ∀ c ∈ s, c.utf8Size = 1) :
    utf8Length s = s.length := by
  induction s with
  | nil => rfl
  | cons c cs ih =>
    unfold utf8Length at *
    simp only [List.map_cons, List.sum_cons, List.length_cons]
    rw [h c (List.mem_cons_self c cs), ih (fun x hx => h x (List.mem_cons_of_mem c hx))]
    omega

theorem byteSlice_of_ascii (s : List Char) (n : Nat)
    (h : ∀ c ∈ s, c.utf8Size = 1) (hn : n ≤ s.length) :
    byteSlice s n = some (s.take n) := by
  induction s generalizing n with
  | nil =>
    have : n = 0 := by simpa using hn
    subst this
    rfl
  | cons c cs ih =>
    cases n with
    | zero => rfl
    | succ n =>
      have hc : c.utf8Size = 1 := h c (List.mem_cons_self c cs)
      unfold byteSlice
      rw [if_pos (by omega)]
      rw [hc]
      simp only [Nat.add_sub_cancel]
      rw [ih n (fun x hx => h x (List.mem_cons_of_mem c hx))
        (by simpa using Nat.succ_le_succ_iff.mp hn)]
      rfl

theorem slugifyChars_utf8Size_one (d : Char → Option String) (cs : List Char) :
    ∀ c ∈ slugifyChars d cs, c.utf8Size = 1 := fun c hc =>
  utf8Size_of_ascii c (isSlugChar_toNat_lt c (isSlugChar_slugifyChars d cs c hc))

theorem trimmedSlug_eq (d : Char → Option String) (p : String) :
    trimmedSlug d p =
      some (if 50 < (slugifyChars d p.data).length then
              (slugifyChars d p.data).take 50
            else slugifyChars d p.data) := by
  unfold trimmedSlug
  have hone := slugifyChars_utf8Size_one d p.data
  have hlen := utf8Length_eq_length _ hone
  simp only []
  rw [hlen]
  split
  · rename_i hgt
    exact byteSlice_of_ascii _ 50 hone (by omega)
  · rfl

theorem findFrom_ok (fs : FS) (slug : String) :
    ∀ (fuel counter c : Nat) (name : String),
      findFrom fs slug counter fuel = Except.ok (c, name) →
      counter ≤ c ∧ c < counter + fuel ∧ name = candidate slug c ∧
        (fs (candidate slug c)).isSome = false ∧
        ∀ k, counter ≤ k → k < c → (fs (candidate slug k)).isSome = true := by
  intro fuel
  induction fuel with
  | zero =>
    intro counter c name h
    simp [findFrom] at h
  | succ fuel ih =>
    intro counter c name h
    unfold findFrom at h
    by_cases hocc : (fs (candidate slug counter)).isSome = true
    · rw [if_pos hocc] at h
      obtain ⟨h1, h2, h3, h4, h5⟩ := ih (counter + 1) c name h
      refine ⟨by omega, by omega, h3, h4, ?_⟩
      intro k hk1 hk2
      rcases Nat.eq_or_lt_of_le hk1 with hk | hk
      · rw [← hk]
        exact hocc
      · exact h5 k hk hk2
    · rw [if_neg hocc] at h
      injection h with h
      injection h with hc hname
      subst hc
      subst hname
      refine ⟨Nat.le_refl _, by omega, rfl, by simpa using hocc, ?_⟩
      intro k hk1 hk2
      omega

theorem findFrom_error (fs : FS) (slug : String) :
    ∀ (fuel counter : Nat) (e : MatErr),
      findFrom fs slug counter fuel = Except.error e →
      e = MatErr.counterOverflowError ∧
        ∀ k, counter ≤ k → k < counter + fuel → (fs (candidate slug k)).isSome = true := by
  intro fuel
  induction fuel with
  | zero =>
    intro counter e h
    unfold findFrom at h
    injection h with h
    exact ⟨h.symm, fun k hk1 hk2 => by omega⟩
  | succ fuel ih =>
    intro counter e h
    unfold findFrom at h
    by_cases hocc : (fs (candidate slug counter)).isSome = true
    · rw [if_pos hocc] at h
      obtain ⟨h1, h2⟩ := ih (counter + 1) e h
      refine ⟨h1, ?_⟩
      intro k hk1 hk2
      rcases Nat.eq_or_lt_of_le hk1 with hk | hk
      · rw [← hk]
        exact hocc
      · exact h2 k hk (by omega)
    · rw [if_neg hocc] at h
      exact absurd h (by simp)

theorem findFrom_error_of_all (fs : FS) (slug : String) :
    ∀ (fuel counter : Nat),
      (∀ k, counter ≤ k → k < counter + fuel → (fs (candidate slug k)).isSome = true) →
      findFrom fs slug counter fuel = Except.error MatErr.counterOverflowError := by
  intro fuel
  induction fuel with
  | zero => intro counter _; rfl
  | succ fuel ih =>
    intro counter hall
    unfold findFrom
    rw [if_pos (hall counter (Nat.le_refl _) (by omega))]
    exact ih (counter + 1) (fun k hk1 hk2 => hall k (by omega) (by omega))

theorem findFilename_ok (fs : FS) (slug : String) (counter c : Nat) (name : String)
    (h : findFilename fs slug counter = Except.ok (c, name)) :
    counter ≤ c ∧ name = candidate slug c ∧
      (fs (candidate slug c)).isSome = false ∧
      ∀ k, counter ≤ k → k < c → (fs (candidate slug k)).isSome = true := by
  obtain ⟨h1, _, h3, h4, h5⟩ := findFrom_ok fs slug _ counter c name h
  exact ⟨h1, h3, h4, h5⟩

theorem findFilename_ok_le_max (fs : FS) (slug : String) (counter c : Nat) (name : String)
    (hc : counter ≤ USIZE_MAX)
    (h : findFilename fs slug counter = Except.ok (c, name)) : c ≤ USIZE_MAX := by
  obtain ⟨_, h2, _, _, _⟩ := findFrom_ok fs slug _ counter c name h
  omega

theorem findFilename_error_iff (fs : FS) (slug : String) (counter : Nat) (e : MatErr)
    (hc : counter ≤ USIZE_MAX) :
    findFilename fs slug counter = Except.error e ↔
      (e = MatErr.counterOverflowError ∧
        ∀ k, counter ≤ k → k ≤ USIZE_MAX → (fs (candidate slug k)).isSome = true) := by
  constructor
  · intro h
    obtain ⟨h1, h2⟩ := findFrom_error fs slug _ counter e h
    exact ⟨h1, fun k hk1 hk2 => h2 k hk1 (by omega)⟩
  · rintro ⟨he, hall⟩
    subst he
    exact findFrom_error_of_all fs slug _ counter (fun k hk1 hk2 => hall k hk1 (by omega))

theorem SaveInv_aborted (slug : String) (fs : FS) (i : Nat) (payloads : List String)
    (e : MatErr) : SaveInv slug fs i payloads ⟨fs, [], [], some e⟩ := by
  unfold SaveInv
  refine ⟨fun s _ => rfl, ?_, ?_, rfl, List.chain'_nil, ?_, ?_⟩
  · intro f hf
    simp at hf
  · intro j f hf
    simp at hf
  · intro f hf
    simp at hf
  · intro hn
    simp at hn

theorem saveImagesFrom_inv (dec : String → Option (List Nat)) (d : Char → Option String)
    (prompt slug : String) (hs : trimmedSlugStr d prompt = some slug) :
    ∀ (payloads : List String) (fs : FS) (i : Nat),
      SaveInv slug fs i payloads (saveImagesFrom dec d prompt fs payloads i) := by
  intro payloads
  induction payloads with
  | nil =>
    intro fs i
    unfold SaveInv saveImagesFrom
    refine ⟨fun s _ => rfl, ?_, ?_, rfl, List.chain'_nil, ?_, fun _ => rfl⟩
    · intro f hf
      simp at hf
    · intro j f hf
      simp at hf
    · intro f hf
      simp at hf
  | cons p rest ih =>
    intro fs i
    cases hdec : dec p with
    | none =>
      have hR : saveImagesFrom dec d prompt fs (p :: rest) i =
          ⟨fs, [], [], some MatErr.base64DecodeError⟩ := by
        simp only [saveImagesFrom, hdec]
      rw [hR]
      exact SaveInv_aborted slug fs i (p :: rest) MatErr.base64DecodeError
    | some bytes =>
      cases hfind : findFilename fs slug (i + 1) with
      | error e =>
        have hR : saveImagesFrom dec d prompt fs (p :: rest) i = ⟨fs, [], [], some e⟩ := by
          simp only [saveImagesFrom, hdec, hs, hfind]
        rw [hR]
        exact SaveInv_aborted slug fs i (p :: rest) e
      | ok cn =>
        obtain ⟨c, name⟩ := cn
        obtain ⟨hcle, hname, hfree, hscan⟩ := findFilename_ok fs slug (i + 1) c name hfind
        have hfsname : fs name = none := by
          rw [hname]
          cases hval : fs (candidate slug c) with
          | none => rfl
          | some v =>
            rw [hval] at hfree
            simp at hfree
        have ihx := ih (fun s => if s = name then some bytes else fs s) (i + 1)
        unfold SaveInv at ihx
        obtain ⟨ih1, ih2, ih3, ih4, ih5, ih6, ih7⟩ := ihx
        have hR : saveImagesFrom dec d prompt fs (p :: rest) i =
            ⟨(saveImagesFrom dec d prompt
                (fun s => if s = name then some bytes else fs s) rest (i + 1)).fs,
              ⟨name, c, i + 1, bytes⟩ ::
                (saveImagesFrom dec d prompt
                  (fun s => if s = name then some bytes else fs s) rest (i + 1)).files,
              ("Image saved to: " ++ name) ::
                (saveImagesFrom dec d prompt
                  (fun s => if s = name then some bytes else fs s) rest (i + 1)).lines,
              (saveImagesFrom dec d prompt
                (fun s => if s = name then some bytes else fs s) rest (i + 1)).err⟩ := by
          simp only [saveImagesFrom, hdec, hs, hfind]
        rw [hR]
        unfold SaveInv
        refine ⟨?_, ?_, ?_, ?_, ?_, ?_, ?_⟩
        · -- pre-existing entries survive
          intro s hsome
          have hne : s ≠ name := by
            intro heq
            rw [heq, hfsname] at hsome
            simp at hsome
          have h2 := ih1 s (by simpa [hne] using hsome)
          simpa [hne] using h2
        · -- every created file is fresh and holds its bytes
          intro f hf
          rcases List.mem_cons.mp hf with hf | hf
          · subst hf
            refine ⟨hname, hfsname, hcle, ?_⟩
            have hsome : ((fun s => if s = name then some bytes else fs s) name).isSome = true := by
              simp
            have h2 := ih1 name hsome
            simpa using h2
          · obtain ⟨hf1, hf2, hf3, hf4⟩ := ih2 f hf
            refine ⟨hf1, ?_, hf3, hf4⟩
            by_cases hne : f.name = name
            · rw [hne] at hf2
              simp at hf2
            · simpa [hne] using hf2
        · -- sequence indices count up from i + 1
          intro j f hf
          cases j with
          | zero =>
            simp at hf
            rw [← hf]
          | succ j =>
            rw [List.getElem?_cons_succ] at hf
            have h2 := ih3 j f hf
            omega
        · -- one line per file
          simp only [List.map_cons]
          rw [ih4]
        · -- counters strictly increase
          rw [List.chain'_cons']
          refine ⟨?_, ih5⟩
          intro g hg
          have hgmem : g ∈ (saveImagesFrom dec d prompt
              (fun s => if s = name then some bytes else fs s) rest (i + 1)).files :=
            List.mem_of_mem_head? hg
          obtain ⟨hg1, hg2, hg3, hg4⟩ := ih2 g hgmem
          have hgseq : g.seqIdx = i + 2 := by
            cases hfl : (saveImagesFrom dec d prompt
                (fun s => if s = name then some bytes else fs s) rest (i + 1)).files with
            | nil =>
              rw [hfl] at hg
              simp at hg
            | cons g0 t =>
              rw [hfl] at hg
              simp at hg
              have h0 : (saveImagesFrom dec d prompt
                  (fun s => if s = name then some bytes else fs s) rest (i + 1)).files[0]?
                    = some g0 := by
                rw [hfl]
                simp
              have h2 := ih3 0 g0 h0
              rw [← hg]
              omega
          have hgcand : (if candidate slug g.counter = name then some bytes
              else fs (candidate slug g.counter)) = none := by
            rw [← hg1]
            exact hg2
          have hgne : candidate slug g.counter ≠ name := by
            intro heq
            rw [if_pos heq] at hgcand
            simp at hgcand
          have hgfs : fs (candidate slug g.counter) = none := by
            rwa [if_neg hgne] at hgcand
          show c < g.counter
          by_contra hcon
          push_neg at hcon
          rcases Nat.eq_or_lt_of_le hcon with heq | hlt
          · apply hgne
            rw [heq, hname]
          · have hk1 : i + 1 ≤ g.counter := by omega
            have h3 := hscan g.counter hk1 hlt
            rw [hgfs] at h3
            simp at h3
        · -- the first file's counter is the least free one
          intro f hf k hk1 hk2
          have hfF : (⟨name, c, i + 1, bytes⟩ : GenFile) = f := by
            simpa using hf
          rw [← hfF] at hk2
          exact hscan k hk1 hk2
        · -- error-free runs create one file per payload
          intro herr
          simp only [List.length_cons]
          rw [ih7 herr]

theorem saveImagesFrom_append_ok (dec : String → Option (List Nat)) (d : Char → Option String)
    (prompt : String) :
    ∀ (xs ys : List String) (fs : FS) (i : Nat),
      (saveImagesFrom dec d prompt fs xs i).err = none →
      saveImagesFrom dec d prompt fs (xs ++ ys) i =
        ⟨(saveImagesFrom dec d prompt (saveImagesFrom dec d prompt fs xs i).fs ys
            (i + xs.length)).fs,
          (saveImagesFrom dec d prompt fs xs i).files ++
            (saveImagesFrom dec d prompt (saveImagesFrom dec d prompt fs xs i).fs ys
              (i + xs.length)).files,
          (saveImagesFrom dec d prompt fs xs i).lines ++
            (saveImagesFrom dec d prompt (saveImagesFrom dec d prompt fs xs i).fs ys
              (i + xs.length)).lines,
          (saveImagesFrom dec d prompt (saveImagesFrom dec d prompt fs xs i).fs ys
            (i + xs.length)).err⟩ := by
  intro xs
  induction xs with
  | nil =>
    intro ys fs i _
    rfl
  | cons p rest ih =>
    intro ys fs i herr
    cases hdec : dec p with
    | none =>
      simp only [saveImagesFrom, hdec] at herr
      exact Option.noConfusion herr
    | some bytes =>
      cases hts : trimmedSlugStr d prompt with
      | none =>
        simp only [saveImagesFrom, hdec, hts] at herr
        exact Option.noConfusion herr
      | some slug =>
        cases hfind : findFilename fs slug (i + 1) with
        | error e =>
          simp only [saveImagesFrom, hdec, hts, hfind] at herr
          exact Option.noConfusion herr
        | ok cn =>
          obtain ⟨c, name⟩ := cn
          have herr' : (saveImagesFrom dec d prompt
              (fun s => if s = name then some bytes else fs s) rest (i + 1)).err = none := by
            simpa only [saveImagesFrom, hdec, hts, hfind] using herr
          have hstep : saveImagesFrom dec d prompt fs ((p :: rest) ++ ys) i =
              ⟨(saveImagesFrom dec d prompt (fun s => if s = name then some bytes else fs s)
                  (rest ++ ys) (i + 1)).fs,
                ⟨name, c, i + 1, bytes⟩ :: (saveImagesFrom dec d prompt
                  (fun s => if s = name then some bytes else fs s) (rest ++ ys) (i + 1)).files,
                ("Image saved to: " ++ name) :: (saveImagesFrom dec d prompt
                  (fun s => if s = name then some bytes else fs s) (rest ++ ys) (i + 1)).lines,
                (saveImagesFrom dec d prompt
                  (fun s => if s = name then some bytes else fs s) (rest ++ ys) (i + 1)).err⟩ := by
            simp only [List.cons_append, saveImagesFrom, hdec, hts, hfind]
            rfl
          have hstep2 : saveImagesFrom dec d prompt fs (p :: rest) i =
              ⟨(saveImagesFrom dec d prompt (fun s => if s = name then some bytes else fs s)
                  rest (i + 1)).fs,
                ⟨name, c, i + 1, bytes⟩ :: (saveImagesFrom dec d prompt
                  (fun s => if s = name then some bytes else fs s) rest (i + 1)).files,
                ("Image saved to: " ++ name) :: (saveImagesFrom dec d prompt
                  (fun s => if s = name then some bytes else fs s) rest (i + 1)).lines,
                (saveImagesFrom dec d prompt
                  (fun s => if s = name then some bytes else fs s) rest (i + 1)).err⟩ := by
            simp only [saveImagesFrom, hdec, hts, hfind]
          have hlen : i + (p :: rest).length = i + 1 + rest.length := by
            simp only [List.length_cons]
            omega
          rw [hstep, ih ys _ (i + 1) herr', hstep2, hlen]
          simp

theorem trimmedSlugStr_eq (d : Char → Option String) (p : String) :
    trimmedSlugStr d p =
      some (String.mk (if 50 < (slugifyChars d p.data).length then
              (slugifyChars d p.data).take 50
            else slugifyChars d p.data)) := by
  unfold trimmedSlugStr
  rw [trimmedSlug_eq]
  rfl

/-- Claim C1: without a reference image the program sends a JSON body with
fields `prompt`, `n`, `size`, `quality` and the fixed `output_format "png"`
to the generations endpoint; with a reference image it sends a multipart form
with the same field values (`n` as its string form) plus the file under an
`image` field to the edits endpoint. -/
theorem requestBuilder_spec (apiBase deployment : String) (cli : Cli) :
    (cli.reference = none →
      buildRequest apiBase deployment cli =
        { url := genUrl apiBase deployment
          body := RequestBody.jsonBody (Json.jobj
            [ ("prompt", Json.jstr cli.prompt)
            , ("n", Json.jnum cli.count)
            , ("size", Json.jstr cli.resolution.toStr)
            , ("quality", Json.jstr cli.quality.toStr)
            , ("output_format", Json.jstr "png") ]) }) ∧
    (∀ refPath, cli.reference = some refPath →
      buildRequest apiBase deployment cli =
        { url := editsUrl apiBase deployment
          body := RequestBody.multipartForm
            [ FormPart.text "prompt" cli.prompt
            , FormPart.text "n" (toString cli.count)
            , FormPart.text "size" cli.resolution.toStr
            , FormPart.text "quality" cli.quality.toStr
            , FormPart.text "output_format" "png"
            , FormPart.file "image" refPath ] }) := by
  constructor
  · intro h
    unfold buildRequest
    rw [h]
  · intro refPath h
    unfold buildRequest
    rw [h]

/-- Witness for C1: both branches of `requestBuilder_spec` at concrete
descriptors. -/
theorem requestBuilder_spec_witness :
    buildRequest "https://x" "dep"
        ⟨"a cat", ImageQuality.high, ImageResolution.r1024x1024, 2, none⟩ =
      { url := genUrl "https://x" "dep"
        body := RequestBody.jsonBody (Json.jobj
          [ ("prompt", Json.jstr "a cat")
          , ("n", Json.jnum 2)
          , ("size", Json.jstr "1024x1024")
          , ("quality", Json.jstr "high")
          , ("output_format", Json.jstr "png") ]) } ∧
    buildRequest "https://x" "dep"
        ⟨"a cat", ImageQuality.low, ImageResolution.r1536x1024, 3, some "ref.png"⟩ =
      { url := editsUrl "https://x" "dep"
        body := RequestBody.multipartForm
          [ FormPart.text "prompt" "a cat"
          , FormPart.text "n" "3"
          , FormPart.text "size" "1536x1024"
          , FormPart.text "quality" "low"
          , FormPart.text "output_format" "png"
          , FormPart.file "image" "ref.png" ] } :=
  ⟨(requestBuilder_spec "https://x" "dep"
      ⟨"a cat", ImageQuality.high, ImageResolution.r1024x1024, 2, none⟩).1 rfl,
    (requestBuilder_spec "https://x" "dep"
      ⟨"a cat", ImageQuality.low, ImageResolution.r1536x1024, 3, some "ref.png"⟩).2 "ref.png" rfl⟩

/-- Counterexample for C6: at the concrete unparsable body `Json.null`, the
generate path ends in a panic (`unwrap` of an `Err`), not in the structured
decode error the claim asserts for both paths. -/
theorem generate_decode_unwrap_cex :
    decodeGenerationResponse Json.null = Except.error DecodeErr.decodeError ∧
    readGenerate Json.null = HttpOutcome.panicked ∧
    readGenerate Json.null ≠ HttpOutcome.err DecodeErr.decodeError :=
  ⟨rfl, rfl, by decide⟩

/-- Claim C6 (amended): a response body that fails to parse as an object with
a `data` array of `b64_json` objects yields the structured `DecodeErr` on the
edit path, but a panic (`unwrap`) on the generate path. -/
theorem decode_error_handling (body : Json) (e : DecodeErr)
    (h : decodeGenerationResponse body = Except.error e) :
    readEdit body = HttpOutcome.err e ∧ readGenerate body = HttpOutcome.panicked := by
  unfold readEdit readGenerate
  rw [h]
  exact ⟨rfl, rfl⟩

/-- Witness for C6's amended theorem at the concrete body `Json.null`. -/
theorem decode_error_handling_witness :
    readEdit Json.null = HttpOutcome.err DecodeErr.decodeError ∧
    readGenerate Json.null = HttpOutcome.panicked :=
  decode_error_handling Json.null DecodeErr.decodeError rfl

/-- Claim C8: for every working directory, an overflow of the collision
counter surfaces as the defined error `counterOverflowError` — it happens
exactly when every candidate name up to `usize::MAX` exists — and that is
the only error the collision search can produce. -/
theorem counter_overflow_defined (fs : FS) (slug : String) (counter : Nat)
    (hc : counter ≤ USIZE_MAX) :
    (findFilename fs slug counter = Except.error MatErr.counterOverflowError ↔
      ∀ k, counter ≤ k → k ≤ USIZE_MAX → (fs (candidate slug k)).isSome = true) ∧
    (∀ e, findFilename fs slug counter = Except.error e →
      e = MatErr.counterOverflowError) := by
  constructor
  · rw [findFilename_error_iff fs slug counter MatErr.counterOverflowError hc]
    simp
  · intro e h
    exact (findFrom_error fs slug _ counter e h).1

/-- Witness for C8: with every name taken and the counter at `usize::MAX`,
the loop reports the overflow error. -/
theorem counter_overflow_defined_witness :
    findFilename (fun _ => some []) "a" USIZE_MAX =
      Except.error MatErr.counterOverflowError :=
  ((counter_overflow_defined (fun _ => some []) "a" USIZE_MAX (Nat.le_refl _)).1).mpr
    (fun _ _ _ => rfl)

/-- Claim C9: the collision search always terminates with a definite outcome:
either a free candidate name with a counter still in the `usize` range, or
the overflow error. -/
theorem collision_loop_terminates (fs : FS) (slug : String) (counter : Nat)
    (hc : counter ≤ USIZE_MAX) :
    (∃ c, counter ≤ c ∧ c ≤ USIZE_MAX ∧ (fs (candidate slug c)).isSome = false ∧
      findFilename fs slug counter = Except.ok (c, candidate slug c)) ∨
    findFilename fs slug counter = Except.error MatErr.counterOverflowError := by
  cases h : findFilename fs slug counter with
  | ok cn =>
    obtain ⟨c, name⟩ := cn
    obtain ⟨h1, h2, h3, _⟩ := findFilename_ok fs slug counter c name h
    have h4 := findFilename_ok_le_max fs slug counter c name hc h
    left
    refine ⟨c, h1, h4, h3, ?_⟩
    rw [← h2]
  | error e =>
    right
    have he := (findFrom_error fs slug _ counter e h).1
    rw [he]

/-- Witness for C9 at a concrete empty directory. -/
theorem collision_loop_terminates_witness :
    (∃ c, 1 ≤ c ∧ c ≤ USIZE_MAX ∧
      (((fun _ => none : FS)) (candidate "b" c)).isSome = false ∧
      findFilename (fun _ => none) "b" 1 = Except.ok (c, candidate "b" c)) ∨
    findFilename (fun _ => none) "b" 1 = Except.error MatErr.counterOverflowError :=
  collision_loop_terminates (fun _ => none) "b" 1 (by decide)

/-- Claim C2: a response with `k` payloads whose run completes without error
(every payload decodes, every name search and write succeeds) creates exactly
`k` files and prints exactly `k` lines "Image saved to: name", in response
order with sequence indices `1..k`. -/
theorem saveImages_success_counts (dec : String → Option (List Nat))
    (d : Char → Option String) (prompt : String) (fs : FS) (payloads : List String)
    (h : (saveImages dec d prompt fs payloads).err = none) :
    (saveImages dec d prompt fs payloads).files.length = payloads.length ∧
    (saveImages dec d prompt fs payloads).lines.length = payloads.length ∧
    (saveImages dec d prompt fs payloads).lines =
      (saveImages dec d prompt fs payloads).files.map
        (fun f => "Image saved to: " ++ f.name) ∧
    (∀ j f, (saveImages dec d prompt fs payloads).files[j]? = some f →
      f.seqIdx = j + 1) := by
  have hinv := saveImagesFrom_inv dec d prompt _ (trimmedSlugStr_eq d prompt) payloads fs 0
  unfold SaveInv at hinv
  obtain ⟨h1, h2, h3, h4, h5, h6, h7⟩ := hinv
  unfold saveImages at h ⊢
  refine ⟨h7 h, ?_, h4, ?_⟩
  · rw [h4, List.length_map, h7 h]
  · intro j f hf
    have := h3 j f hf
    omega

/-- Witness for C2: two payloads, empty directory — two files, two lines. -/
theorem saveImages_success_counts_witness :
    (saveImages (fun _ => some []) (fun _ => none) "a" (fun _ => none)
      ["x", "y"]).files.length = 2 ∧
    (saveImages (fun _ => some []) (fun _ => none) "a" (fun _ => none)
      ["x", "y"]).lines.length = 2 ∧
    (saveImages (fun _ => some []) (fun _ => none) "a" (fun _ => none) ["x", "y"]).lines =
      (saveImages (fun _ => some []) (fun _ => none) "a" (fun _ => none)
        ["x", "y"]).files.map (fun f => "Image saved to: " ++ f.name) ∧
    (⟨"a_2.png", 2, 2, []⟩ : GenFile).seqIdx = 1 + 1 := by
  have h := saveImages_success_counts (fun _ => some []) (fun _ => none) "a"
    (fun _ => none) ["x", "y"] rfl
  exact ⟨h.1, h.2.1, h.2.2.1, h.2.2.2 1 ⟨"a_2.png", 2, 2, []⟩ rfl⟩

/-- Claim C3: after an error-free run, the file count equals the payload
count, and the counters embedded in the chosen names are 1-based and strictly
increasing in response order, whatever files pre-existed. -/
theorem saveImages_counters_increasing (dec : String → Option (List Nat))
    (d : Char → Option String) (prompt : String) (fs : FS) (payloads : List String)
    (h : (saveImages dec d prompt fs payloads).err = none) :
    (saveImages dec d prompt fs payloads).files.length = payloads.length ∧
    (∀ f ∈ (saveImages dec d prompt fs payloads).files, 1 ≤ f.counter) ∧
    List.Chain' (fun a b => a.counter < b.counter)
      (saveImages dec d prompt fs payloads).files := by
  have hinv := saveImagesFrom_inv dec d prompt _ (trimmedSlugStr_eq d prompt) payloads fs 0
  unfold SaveInv at hinv
  obtain ⟨h1, h2, h3, h4, h5, h6, h7⟩ := hinv
  unfold saveImages at h ⊢
  refine ⟨h7 h, ?_, h5⟩
  intro f hf
  obtain ⟨j, hj⟩ := List.mem_iff_getElem?.mp hf
  have hseq := h3 j f hj
  have hle := (h2 f hf).2.2.1
  omega

/-- Witness for C3: two payloads in an empty directory — counters [1, 2]. -/
theorem saveImages_counters_increasing_witness :
    (saveImages (fun _ => some []) (fun _ => none) "b" (fun _ => none)
      ["x", "y"]).files.length = 2 ∧
    1 ≤ (⟨"b_1.png", 1, 1, []⟩ : GenFile).counter ∧
    List.Chain' (fun a b => a.counter < b.counter)
      (saveImages (fun _ => some []) (fun _ => none) "b" (fun _ => none)
        ["x", "y"]).files := by
  have h := saveImages_counters_increasing (fun _ => some []) (fun _ => none) "b"
    (fun _ => none) ["x", "y"] rfl
  exact ⟨h.1, h.2.1 ⟨"b_1.png", 1, 1, []⟩ (by decide), h.2.2⟩

/-- Claim C4: a candidate name that exists is skipped by incrementing the
counter, so a chosen name never names a pre-existing file and pre-existing
bytes survive unchanged; if `slug_1.png` exists, the first payload of a batch
gets counter at least 2 — the least free one. -/
theorem saveImages_no_overwrite (dec : String → Option (List Nat))
    (d : Char → Option String) (prompt slug : String) (fs : FS)
    (payloads : List String) (hs : trimmedSlugStr d prompt = some slug) :
    (∀ f ∈ (saveImages dec d prompt fs payloads).files, fs f.name = none) ∧
    (∀ s b, fs s = some b → (saveImages dec d prompt fs payloads).fs s = some b) ∧
    ((fs (candidate slug 1)).isSome = true →
      ∀ f, (saveImages dec d prompt fs payloads).files.head? = some f →
        2 ≤ f.counter ∧ fs (candidate slug f.counter) = none ∧
        ∀ k, 1 ≤ k → k < f.counter → (fs (candidate slug k)).isSome = true) := by
  have hinv := saveImagesFrom_inv dec d prompt slug hs payloads fs 0
  unfold SaveInv at hinv
  obtain ⟨h1, h2, h3, h4, h5, h6, h7⟩ := hinv
  unfold saveImages
  refine ⟨?_, ?_, ?_⟩
  · intro f hf
    exact (h2 f hf).2.1
  · intro s b hsb
    have hsome : (fs s).isSome = true := by
      rw [hsb]
      rfl
    rw [h1 s hsome, hsb]
  · intro hocc f hf
    have hfmem := List.mem_of_mem_head? hf
    obtain ⟨hn, hfs, hseq, _⟩ := h2 f hfmem
    have hseq1 : f.seqIdx = 1 := by
      cases hfl : (saveImagesFrom dec d prompt fs payloads 0).files with
      | nil =>
        rw [hfl] at hf
        simp at hf
      | cons g t =>
        rw [hfl] at hf
        simp at hf
        have h0 : (saveImagesFrom dec d prompt fs payloads 0).files[0]? = some g := by
          rw [hfl]
          simp
        have hg := h3 0 g h0
        rw [← hf]
        omega
    have hne : f.counter ≠ 1 := by
      intro heq
      rw [heq] at hn
      rw [hn] at hfs
      rw [hfs] at hocc
      simp at hocc
    refine ⟨by omega, ?_, ?_⟩
    · rw [← hn]
      exact hfs
    · intro k hk1 hk2
      exact h6 f hf k hk1 hk2

/-- Witness for C4: with `a_1.png` pre-existing, the head file of a one-image
batch has counter 2 and a fresh name. -/
theorem saveImages_no_overwrite_witness :
    2 ≤ (⟨"a_2.png", 2, 1, []⟩ : GenFile).counter ∧
    (fun s => if s = "a_1.png" then some ([7] : List Nat) else none)
      (candidate "a" (⟨"a_2.png", 2, 1, []⟩ : GenFile).counter) = none := by
  have h := (saveImages_no_overwrite (fun _ => some []) (fun _ => none) "a" "a"
    (fun s => if s = "a_1.png" then some ([7] : List Nat) else none) ["x"] rfl).2.2
    (by decide) ⟨"a_2.png", 2, 1, []⟩ rfl
  exact ⟨h.1, h.2.1⟩

/-- Claim C5: the slug portion of every output filename is the slug itself
when it has at most 50 characters, and exactly its first 50 characters when
longer. -/
theorem slug_truncation (d : Char → Option String) (p : String) :
    ∃ t, trimmedSlugStr d p = some t ∧
      (50 < (slugifyChars d p.data).length →
        t.data = (slugifyChars d p.data).take 50 ∧ t.data.length = 50) ∧
      ((slugifyChars d p.data).length ≤ 50 → t.data = slugifyChars d p.data) ∧
      (∀ dec fs payloads f, f ∈ (saveImages dec d p fs payloads).files →
        f.name = candidate t f.counter) := by
  refine ⟨String.mk (if 50 < (slugifyChars d p.data).length then
      (slugifyChars d p.data).take 50 else slugifyChars d p.data),
    trimmedSlugStr_eq d p, ?_, ?_, ?_⟩
  · intro hgt
    constructor
    · show (if 50 < (slugifyChars d p.data).length then
          (slugifyChars d p.data).take 50 else slugifyChars d p.data) = _
      rw [if_pos hgt]
    · show (if 50 < (slugifyChars d p.data).length then
          (slugifyChars d p.data).take 50 else slugifyChars d p.data).length = 50
      rw [if_pos hgt, List.length_take]
      omega
  · intro hle
    show (if 50 < (slugifyChars d p.data).length then
        (slugifyChars d p.data).take 50 else slugifyChars d p.data) = _
    rw [if_neg (not_lt.mpr hle)]
  · intro dec fs payloads f hf
    have hinv := saveImagesFrom_inv dec d p _ (trimmedSlugStr_eq d p) payloads fs 0
    unfold SaveInv at hinv
    exact (hinv.2.1 f hf).1

/-- Witness for C5: a 60-character prompt of `a`s has a 60-character slug and
a 50-character trimmed slug. -/
theorem slug_truncation_witness :
    ∃ t, trimmedSlugStr (fun _ => none)
        "aaaaaaaaaaaaaaaaaaaaaaaaaaaaaaaaaaaaaaaaaaaaaaaaaaaaaaaaaaaa" = some t ∧
      t.data.length = 50 := by
  obtain ⟨t, h1, h2, _, _⟩ := slug_truncation (fun _ => none)
    "aaaaaaaaaaaaaaaaaaaaaaaaaaaaaaaaaaaaaaaaaaaaaaaaaaaaaaaaaaaa"
  exact ⟨t, h1, (h2 (by decide)).2⟩

/-- Claim C10: every character the slugifier emits is a single-byte ASCII
character (`-`, a lowercase letter, or a digit), so the slug's byte length is
its character count and the byte slice at 50 never panics. -/
theorem slug_ascii_safe (d : Char → Option String) (p : String) :
    (∀ c ∈ slugifyChars d p.data, isSlugChar c ∧ c.utf8Size = 1) ∧
    utf8Length (slugifyChars d p.data) = (slugifyChars d p.data).length ∧
    (trimmedSlug d p).isSome = true := by
  have hone := slugifyChars_utf8Size_one d p.data
  refine ⟨?_, utf8Length_eq_length _ hone, ?_⟩
  · intro c hc
    exact ⟨isSlugChar_slugifyChars d p.data c hc, hone c hc⟩
  · rw [trimmedSlug_eq]
    rfl

/-- Witness for C10 on a prompt with a non-ASCII character. -/
theorem slug_ascii_safe_witness :
    (isSlugChar 'h' ∧ ('h').utf8Size = 1) ∧
    (trimmedSlug (fun _ => some "e") "Héllo!").isSome = true :=
  ⟨(slug_ascii_safe (fun _ => some "e") "Héllo!").1 'h' (by decide),
    (slug_ascii_safe (fun _ => some "e") "Héllo!").2.2⟩

/-- Claim C7: a base64 decode failure at payload position `i` (0-based, after
an error-free prefix) aborts the run with `base64DecodeError`; no file is
written for that payload or any later one, and the files written for earlier
payloads remain on disk with their bytes. -/
theorem saveImages_base64_abort (dec : String → Option (List Nat))
    (d : Char → Option String) (prompt : String) (fs : FS)
    (pre post : List String) (p : String)
    (hpre : (saveImages dec d prompt fs pre).err = none)
    (hp : dec p = none) :
    (saveImages dec d prompt fs (pre ++ p :: post)).err =
      some MatErr.base64DecodeError ∧
    (saveImages dec d prompt fs (pre ++ p :: post)).files =
      (saveImages dec d prompt fs pre).files ∧
    (saveImages dec d prompt fs (pre ++ p :: post)).lines =
      (saveImages dec d prompt fs pre).lines ∧
    (saveImages dec d prompt fs (pre ++ p :: post)).files.length = pre.length ∧
    (∀ f ∈ (saveImages dec d prompt fs (pre ++ p :: post)).files,
      (saveImages dec d prompt fs (pre ++ p :: post)).fs f.name = some f.bytes) := by
  unfold saveImages at *
  have happ := saveImagesFrom_append_ok dec d prompt pre (p :: post) fs 0 hpre
  have hstep : saveImagesFrom dec d prompt (saveImagesFrom dec d prompt fs pre 0).fs
      (p :: post) (0 + pre.length) =
      ⟨(saveImagesFrom dec d prompt fs pre 0).fs, [], [],
        some MatErr.base64DecodeError⟩ := by
    simp only [saveImagesFrom, hp]
  rw [hstep] at happ
  rw [happ]
  have hinv := saveImagesFrom_inv dec d prompt _ (trimmedSlugStr_eq d prompt) pre fs 0
  unfold SaveInv at hinv
  obtain ⟨h1, h2, h3, h4, h5, h6, h7⟩ := hinv
  refine ⟨rfl, by simp, by simp, ?_, ?_⟩
  · simp [h7 hpre]
  · intro f hf
    simp at hf
    exact (h2 f hf).2.2.2

/-- Witness for C7: a good payload followed by a bad one — one file kept, the
error reported. -/
theorem saveImages_base64_abort_witness :
    (saveImages (fun s => if s = "bad" then none else some ([] : List Nat))
      (fun _ => none) "a" (fun _ => none) (["x"] ++ "bad" :: [])).err =
        some MatErr.base64DecodeError ∧
    (saveImages (fun s => if s = "bad" then none else some ([] : List Nat))
      (fun _ => none) "a" (fun _ => none) (["x"] ++ "bad" :: [])).files.length = 1 := by
  have h := saveImages_base64_abort
    (fun s => if s = "bad" then none else some ([] : List Nat))
    (fun _ => none) "a" (fun _ => none) ["x"] [] "bad" rfl rfl
  exact ⟨h.1, h.2.2.2.1⟩
